import Mathlib

/-!
# Verification of the realtime user-analytics ingestion pipeline

Shallow embedding of the event-ingestion core of the repository:

* `validate_event` embeds `EventStorageService.validate_event`
  (src/src/consumer/event_storage_service.py, lines 49-99);
* `store_event` embeds `EventStorageService.store_event` (lines 101-264),
  with its helper steps factored into named definitions that mirror the
  numbered steps of the Python function;
* `log_dead_letter` embeds `EventStorageService.log_dead_letter`;
* `process_message` embeds the per-message body of the Coordinator loop in
  `main` (src/src/consumer/user_event_consumer.py, lines 242-305).

Modelling conventions:

* Python floats are embedded as `PyNum`: an exact rational for finite values
  plus `inf`, `ninf` and `nan`, because `float(...)` in the source accepts
  the strings "inf"/"nan" (and `json.loads` accepts `Infinity`/`NaN`), and
  IEEE comparisons with these values matter for validation.  Finite float
  and `Decimal` arithmetic is idealised as exact rational arithmetic.
* Timestamps are embedded as integers already in parsed form;
  `datetime.fromisoformat` succeeds on every present timestamp in this
  model (no claim under consideration concerns ill-formed timestamps).
* JSON field values for `amount`/`duration` are embedded as `JVal`: a JSON
  number, a string accepted by Python `float()`, or a string rejected by it.
  JSON `null` is conflated with field absence (`Option.none`), matching
  `dict.get` which returns `None` in both cases.
* Transient storage-layer faults (`SQLAlchemyError`: connection loss,
  timeout, ...) are injected through the `dbFault` flag, and the
  unique-constraint race at commit time (another writer inserting the same
  `event_id` between the duplicate check and the commit) through the
  `concurrent` list of event ids committed by other writers.  On every
  raised error the session is rolled back, so the database component of the
  result is the unchanged input state.
* The database session is modelled by explicit state passing: `store_event`
  returns the Python return value (`Except` for raised exceptions, with
  `Option String` for the `event_id`-or-`None` result) together with the
  committed database state.
-/

namespace Analytics

/-- Result of Python `float(...)` / a float value: an exact rational for a
finite double, or one of the non-finite values. -/
inductive PyNum where
  | fin (q : ℚ)
  | inf
  | ninf
  | nan
deriving DecidableEq

/-- IEEE-style test `x <= 0` used by `validate_event` on the converted
amount.  `nan <= 0` is false in Python, `inf <= 0` is false, `-inf <= 0`
is true. -/
def pyLEzero : PyNum → Bool
  | PyNum.fin q => decide (q ≤ 0)
  | PyNum.inf => false
  | PyNum.ninf => true
  | PyNum.nan => false

/-- Float addition (used for the running-average numerator and for the
`Decimal` sum `total_spent`; `Decimal` propagates `Infinity`/`NaN` the same
way). -/
def PyNum.add : PyNum → PyNum → PyNum
  | PyNum.nan, _ => PyNum.nan
  | _, PyNum.nan => PyNum.nan
  | PyNum.inf, PyNum.ninf => PyNum.nan
  | PyNum.ninf, PyNum.inf => PyNum.nan
  | PyNum.inf, _ => PyNum.inf
  | _, PyNum.inf => PyNum.inf
  | PyNum.ninf, _ => PyNum.ninf
  | _, PyNum.ninf => PyNum.ninf
  | PyNum.fin a, PyNum.fin b => PyNum.fin (a + b)

/-- Float multiplication by a natural number (the `old_avg * old_duration_count`
factor of the running average; `inf * 0 = nan` as in IEEE). -/
def PyNum.mulNat : PyNum → Nat → PyNum
  | PyNum.fin q, n => PyNum.fin (q * n)
  | PyNum.nan, _ => PyNum.nan
  | PyNum.inf, n => if n = 0 then PyNum.nan else PyNum.inf
  | PyNum.ninf, n => if n = 0 then PyNum.nan else PyNum.ninf

/-- Float division by a positive natural number (the `/ (old_duration_count + 1)`
of the running average; never called with divisor `0` by the embedded code). -/
def PyNum.divNat : PyNum → Nat → PyNum
  | PyNum.fin q, n => PyNum.fin (q / n)
  | PyNum.nan, _ => PyNum.nan
  | PyNum.inf, _ => PyNum.inf
  | PyNum.ninf, _ => PyNum.ninf

/-- Rendering of a float in an f-string.  The exact digit sequence of the
Python rendering is irrelevant to every claim (only containment of the word
"positive" and distinctness of the literal message heads matter), so a
simple exact rendering of the rational is used. -/
def PyNum.str : PyNum → String
  | PyNum.fin q => toString q.num ++ "/" ++ toString q.den
  | PyNum.inf => "inf"
  | PyNum.ninf => "-inf"
  | PyNum.nan => "nan"

/-- A JSON-decoded field value for the `amount` / `duration` payload fields:
a JSON number, a string that Python `float()` accepts, or a string it
rejects with `ValueError`. -/
inductive JVal where
  | num (x : PyNum)
  | numStr (x : PyNum)
  | badStr (s : String)
deriving DecidableEq

/-- Python truthiness of a field value, as used by `if duration_value:` in
`store_event`.  The number `0` is falsy; every string accepted by `float()`
is non-empty and hence truthy; the empty string is the only falsy string. -/
def JVal.truthy : JVal → Bool
  | JVal.num (PyNum.fin q) => q != 0
  | JVal.num _ => true
  | JVal.numStr _ => true
  | JVal.badStr s => s != ""

/-- Python `float(v)`: numbers convert to themselves, numeric strings to
their value, other strings raise (`none`). -/
def pyFloat : JVal → Option PyNum
  | JVal.num x => some x
  | JVal.numStr x => some x
  | JVal.badStr _ => none

/-- Rendering of a raw field value in an f-string (strings render without
quotes in Python f-strings). -/
def JVal.str : JVal → String
  | JVal.num x => x.str
  | JVal.numStr x => x.str
  | JVal.badStr s => s

/-- A decoded Kafka message payload (`msg["value"]`).  `none` stands for an
absent key (or JSON `null`, which `dict.get` treats the same way). -/
structure Payload where
  user_id : Option String
  event_id : Option String
  event_type : Option String
  timestamp : Option Int
  amount : Option JVal
  duration : Option JVal
  email : Option String
  first_name : Option String
  last_name : Option String
  country : Option String
deriving DecidableEq

/-- A row of the `users` table (the columns the ingestion core writes). -/
structure UserRow where
  user_id : String
  email : Option String
  first_name : Option String
  last_name : Option String
  country : Option String
  signup_date : Int
deriving DecidableEq

/-- A row of the `user_events` table (the columns the ingestion core writes).
`duration` is the `Float` column: `none` is SQL `NULL`, stored when the
payload has no duration, otherwise the numeric value of the raw payload
field coerced by the database. -/
structure EventRow where
  event_id : String
  user_id : String
  event_type : String
  timestamp : Int
  duration : Option PyNum
deriving DecidableEq

/-- A row of the `user_stats` table. -/
structure StatsRow where
  user_id : String
  total_events : Nat
  total_purchases : Nat
  total_spent : PyNum
  last_active : Option Int
  last_purchase : Option Int
  avg_session_duration : PyNum
  engagement_score : ℚ
deriving DecidableEq

/-- Column defaults of `UserStats` (models.py lines 202-215): zero counts,
zero spend, zero average and score. -/
def StatsRow.init (uid : String) : StatsRow :=
  { user_id := uid, total_events := 0, total_purchases := 0,
    total_spent := PyNum.fin 0, last_active := none, last_purchase := none,
    avg_session_duration := PyNum.fin 0, engagement_score := 0 }

/-- A row of the `dead_letter_queue` table. -/
structure DLQRow where
  event_id : Option String
  event_data : Payload
  error_message : String
  error_type : String
  status : String
  retry_count : Nat
deriving DecidableEq

/-- The database state visible to the ingestion core. -/
structure DB where
  users : List UserRow
  events : List EventRow
  stats : List StatsRow
  dlq : List DLQRow
deriving DecidableEq

def DB.empty : DB := ⟨[], [], [], []⟩

/-- A raised Python exception, as classified by the Coordinator loop:
`ValueError`, a `SQLAlchemyError` (with the concrete class name), or any
other exception. -/
inductive PyErr where
  | valueError (msg : String)
  | dbError (name msg : String)
  | otherError (name msg : String)
deriving DecidableEq

/-- `type(e).__name__` as used for the DLQ `error_type` column. -/
def errTypeName : PyErr → String
  | PyErr.valueError _ => "ValueError"
  | PyErr.dbError n _ => n
  | PyErr.otherError n _ => n

/-- `str(e)` as used for the DLQ `error_message` column. -/
def errMessage : PyErr → String
  | PyErr.valueError m => m
  | PyErr.dbError _ m => m
  | PyErr.otherError _ m => m

/-- `db.query(UserEvent).filter(UserEvent.event_id == event_id).first()`. -/
def findEvent (db : DB) (eid : String) : Option EventRow :=
  db.events.find? (fun e => e.event_id == eid)

/-- `db.query(User).filter(User.user_id == user_id).first()`. -/
def findUser (db : DB) (uid : String) : Option UserRow :=
  db.users.find? (fun u => u.user_id == uid)

/-- `db.query(UserStats).filter(UserStats.user_id == user_id).first()`. -/
def findStats (db : DB) (uid : String) : Option StatsRow :=
  db.stats.find? (fun s => s.user_id == uid)

/-- `db.query(UserEvent).filter(UserEvent.user_id == user_id,
UserEvent.duration.isnot(None)).count()` over a list of event rows. -/
def durCountL (evs : List EventRow) (uid : String) : Nat :=
  (evs.filter (fun e => e.user_id == uid && e.duration.isSome)).length

def durationCount (db : DB) (uid : String) : Nat :=
  durCountL db.events uid

/-- The finite duration values carried by the stored events of a user, in
storage order (used to state what "the arithmetic mean of `duration` over
the stored duration-carrying events" is). -/
def durListL (evs : List EventRow) (uid : String) : List ℚ :=
  evs.filterMap (fun e =>
    if e.user_id == uid then
      match e.duration with
      | some (PyNum.fin q) => some q
      | _ => none
    else none)

def userDurationsQ (db : DB) (uid : String) : List ℚ :=
  durListL db.events uid

/-- Arithmetic mean of a list of rationals; `0` for the empty list (the
column default of `avg_session_duration`). -/
def qmean (l : List ℚ) : ℚ :=
  if l = [] then 0 else l.sum / (l.length : ℚ)

/-- Replacing the (unique) stats row of a user, or inserting it when the
user has no stats row yet — the effect at commit of mutating the ORM object
returned by the stats lookup, resp. of `db.add(stats)` for a fresh row. -/
def upsertStats (l : List StatsRow) (s : StatsRow) : List StatsRow :=
  if l.any (fun r => r.user_id == s.user_id) then
    l.map (fun r => if r.user_id == s.user_id then s else r)
  else l ++ [s]

/-- The missing required fields, `REQUIRED_FIELDS - set(event_data.keys())`
(listed in a fixed order; Python iterates the set in unspecified order). -/
def missingFields (p : Payload) : List String :=
  (if p.user_id.isNone then ["user_id"] else []) ++
  (if p.event_id.isNone then ["event_id"] else []) ++
  (if p.event_type.isNone then ["event_type"] else []) ++
  (if p.timestamp.isNone then ["timestamp"] else [])

/-- `EventStorageService.validate_event` (event_storage_service.py lines
49-99).  Returns `(is_valid, error_message)`.  The timestamp check
(`datetime.fromisoformat`) always succeeds in this model because timestamps
are embedded already parsed; the unknown-event-type branch only logs a
warning and does not fail, so it has no observable effect here. -/
def validate_event (p : Payload) : Bool × Option String :=
  if missingFields p ≠ [] then
    (false, some ("Missing required fields: " ++
      String.intercalate ", " (missingFields p)))
  else
    if p.event_type == some "purchase" then
      match p.amount with
      | none => (false, some "Purchase event missing \x27amount\x27")
      | some a =>
        match pyFloat a with
        | none => (false, some ("Amount not numeric: " ++ a.str))
        | some x =>
          if pyLEzero x then
            (false, some ("Invalid amount: " ++ x.str ++ " (must be positive)"))
          else (true, none)
    else (true, none)

/-- Step 4a of `store_event` (lines 171-185): when the raw duration value is
truthy, convert it with `float` — raising `ValueError` on a non-numeric
string — and count the already-stored duration-carrying events of the user;
otherwise both locals stay `None`. -/
def durStep (db : DB) (p : Payload) (uid : String) :
    Except PyErr (Option PyNum × Option Nat) :=
  match p.duration with
  | none => Except.ok (none, none)
  | some dv =>
    if dv.truthy then
      match pyFloat dv with
      | some d => Except.ok (some d, some (durationCount db uid))
      | none => Except.error (PyErr.valueError
          ("could not convert string to float: " ++ dv.str))
    else Except.ok (none, none)

/-- The value the database stores in the `duration` column of the new event
row (line 193 stores the raw payload value; the database coerces it at
flush, raising a `SQLAlchemyError` for a non-numeric string — reachable
only for the falsy non-numeric string, since a truthy one already raised in
`durStep`). -/
def rowDurVal (p : Payload) : Except PyErr (Option PyNum) :=
  match p.duration with
  | none => Except.ok none
  | some dv =>
    match pyFloat dv with
    | some x => Except.ok (some x)
    | none => Except.error (PyErr.dbError "DataError"
        "invalid input syntax for type double precision")

/-- `Decimal(str(event_data.get("amount", 0)))` (line 228), evaluated only
for purchase events.  After a successful validation the error branch is
unreachable for purchases; it models the `decimal.InvalidOperation` a
non-numeric amount would raise. -/
def amountVal (p : Payload) (etype : String) : Except PyErr PyNum :=
  if etype == "purchase" then
    match p.amount with
    | none => Except.ok (PyNum.fin 0)
    | some a =>
      match pyFloat a with
      | some x => Except.ok x
      | none => Except.error (PyErr.otherError "InvalidOperation"
          "invalid decimal literal")
  else Except.ok (PyNum.fin 0)

/-- `min(100.0, total_events * 0.5 + total_purchases * 5.0)` (lines
235-238). -/
def engagementScore (e p : Nat) : ℚ :=
  min 100 ((e : ℚ) * (1 / 2) + (p : ℚ) * 5)

/-- Lines 208-218: update the running average first, from the pre-insert
duration-carrying count `n`: for `n > 0` the running-average formula, for
`n = 0` the raw duration value; no update when the event carries no
(truthy) duration. -/
def statsAvgStep (s : StatsRow) (durLocal : Option PyNum)
    (oldCount : Option Nat) : StatsRow :=
  match durLocal, oldCount with
  | some d, some n =>
    if n > 0 then
      { s with avg_session_duration :=
          (PyNum.divNat (PyNum.add (PyNum.mulNat s.avg_session_duration n) d)
            (n + 1)) }
    else
      { s with avg_session_duration := d }
  | _, _ => s

/-- Lines 220-222: unconditional event-count increment and last-active
update. -/
def statsCountStep (s : StatsRow) (ts : Int) : StatsRow :=
  { s with total_events := s.total_events + 1, last_active := some ts }

/-- Lines 226-231: purchase-specific updates. -/
def statsPurchaseStep (s : StatsRow) (etype : String) (ts : Int)
    (amt : PyNum) : StatsRow :=
  if etype == "purchase" then
    { s with total_purchases := s.total_purchases + 1,
             total_spent := PyNum.add s.total_spent amt,
             last_purchase := some ts }
  else s

/-- Lines 233-238: engagement-score recomputation from the updated
counters. -/
def statsScoreStep (s : StatsRow) : StatsRow :=
  { s with engagement_score := engagementScore s.total_events s.total_purchases }

/-- Step 5 of `store_event` applied to the (possibly fresh) stats row
(lines 208-238), in the order of the source. -/
def updatedStats (s : StatsRow) (etype : String) (ts : Int)
    (durLocal : Option PyNum) (oldCount : Option Nat) (amt : PyNum) :
    StatsRow :=
  statsScoreStep
    (statsPurchaseStep (statsCountStep (statsAvgStep s durLocal oldCount) ts)
      etype ts amt)

/-- The state committed by a successful `store_event` (steps 3, 4b, 5, 6):
the user row created when absent, the new event row appended to the
append-only log, and the upserted stats row. -/
def applyWrite (db : DB) (p : Payload) (uid eid etype : String) (ts : Int)
    (durLocal : Option PyNum) (oldCount : Option Nat)
    (rowDur : Option PyNum) (amt : PyNum) : DB :=
  let users1 :=
    if (findUser db uid).isSome then db.users
    else db.users ++ [{ user_id := uid, email := p.email,
                        first_name := p.first_name, last_name := p.last_name,
                        country := p.country, signup_date := ts }]
  let row : EventRow := { event_id := eid, user_id := uid, event_type := etype,
                          timestamp := ts, duration := rowDur }
  let s0 := (findStats db uid).getD (StatsRow.init uid)
  { users := users1,
    events := db.events ++ [row],
    stats := upsertStats db.stats (updatedStats s0 etype ts durLocal oldCount amt),
    dlq := db.dlq }

/-- `EventStorageService.store_event` (lines 101-264).  The result pairs the
Python outcome — `Except.error` for a raised exception, `Except.ok none`
for the `return None` of the commit-time duplicate-key `IntegrityError`
handler, `Except.ok (some eid)` for a returned event id — with the
database state after the call (unchanged on every rollback path).

`concurrent` lists event ids committed by other writers between the
duplicate check and the commit of this transaction: a membership makes the
commit raise the duplicate-key `IntegrityError` of lines 246-253, which is
rolled back and converted to `return None`.  `dbFault := true` makes the
commit raise a transient `SQLAlchemyError` (lines 256-259), rolled back and
re-raised.  The catch-all arm for a payload that passed validation with a
required field absent is unreachable (validation checked presence); it is
given the `IntegrityError` a NULL in a NOT NULL column would raise. -/
def store_event (db : DB) (p : Payload) (concurrent : List String)
    (dbFault : Bool) : Except PyErr (Option String) × DB :=
  match validate_event p with
  | (false, msg) => (Except.error (PyErr.valueError (msg.getD "")), db)
  | (true, _) =>
    match p.user_id, p.event_id, p.event_type, p.timestamp with
    | some uid, some eid, some etype, some ts =>
      if (findEvent db eid).isSome then
        (Except.ok (some eid), db)
      else
        match durStep db p uid with
        | Except.error e => (Except.error e, db)
        | Except.ok (durLocal, oldCount) =>
          match rowDurVal p with
          | Except.error e => (Except.error e, db)
          | Except.ok rowDur =>
            match amountVal p etype with
            | Except.error e => (Except.error e, db)
            | Except.ok amt =>
              if concurrent.contains eid then
                (Except.ok none, db)
              else if dbFault then
                (Except.error (PyErr.dbError "SQLAlchemyError" "database error"), db)
              else
                (Except.ok (some eid),
                 applyWrite db p uid eid etype ts durLocal oldCount rowDur amt)
    | _, _, _, _ =>
      (Except.error (PyErr.dbError "IntegrityError"
        "null value in required column"), db)

/-- `EventStorageService.log_dead_letter` (lines 266-327): append a DLQ row
in its own transaction and report success as a boolean. -/
def log_dead_letter (db : DB) (p : Payload) (msg ty status : String) :
    Bool × DB :=
  (true, { db with dlq := db.dlq ++
      [{ event_id := p.event_id, event_data := p, error_message := msg,
         error_type := ty, status := status, retry_count := 0 }] })

/-- The Coordinator throughput counters (`ConsumerState`,
user_event_consumer.py lines 47-55). -/
structure ConsumerState where
  processed : Nat
  failed : Nat
  duplicates : Nat
  dlq_logged : Nat
deriving DecidableEq

def ConsumerState.init : ConsumerState := ⟨0, 0, 0, 0⟩

/-- One iteration of the Coordinator loop on a consumed message
(user_event_consumer.py lines 242-305): call `store_event`, then route the
outcome.  `commitOk` is the boolean returned by
`kafka_consumer.commit_offset` when it is invoked.  The third component of
the result records whether the loop invoked the offset commit for this
message. -/
def process_message (cs : ConsumerState) (db : DB) (p : Payload)
    (concurrent : List String) (dbFault : Bool) (commitOk : Bool) :
    ConsumerState × DB × Bool :=
  match store_event db p concurrent dbFault with
  | (Except.ok (some eid), db1) =>
    if eid ≠ "" then
      if commitOk then
        ({ cs with processed := cs.processed + 1 }, db1, true)
      else
        ({ cs with failed := cs.failed + 1 }, db1, true)
    else
      ({ cs with duplicates := cs.duplicates + 1 }, db1, true)
  | (Except.ok none, db1) =>
    ({ cs with duplicates := cs.duplicates + 1 }, db1, true)
  | (Except.error e, db1) =>
    let r := log_dead_letter db1 p (errMessage e) (errTypeName e) "pending"
    ({ cs with failed := cs.failed + 1, dlq_logged := cs.dlq_logged + 1 },
     r.2, true)

/-- Folding `store_event` over a list of payloads in the fault-free,
race-free run (the reachable storage states of the pipeline). -/
def runStore : DB → List Payload → DB
  | db, [] => db
  | db, p :: ps => runStore (store_event db p [] false).2 ps

/-- A payload whose duration field, when present, is a nonzero finite
number (as a JSON number or a numeric string). -/
def durOKb (p : Payload) : Bool :=
  match p.duration with
  | none => true
  | some (JVal.num (PyNum.fin q)) => q != 0
  | some (JVal.numStr (PyNum.fin q)) => q != 0
  | some _ => false

/-- Substring containment on strings, used to state that a validation
reason contains the word "positive". -/
def strContains (needle hay : String) : Prop :=
  ∃ s t, s ++ needle.data ++ t = hay.data

/-- Invariant: every stats row carries the engagement score recomputed by
step 5 from its own counters. -/
def Inv8 (db : DB) : Prop :=
  ∀ s ∈ db.stats, s.engagement_score = engagementScore s.total_events s.total_purchases

/-- Invariant for the running average, over runs whose payloads satisfy
`durOKb`: stored durations are nonzero finite numbers, every stored event
has a stats row for its user, and every stats row holds the arithmetic mean
of the stored durations of its user. -/
def Inv2 (db : DB) : Prop :=
  (∀ e ∈ db.events,
    e.duration = none ∨ ∃ q : ℚ, q ≠ 0 ∧ e.duration = some (PyNum.fin q)) ∧
  (∀ e ∈ db.events, ∃ s ∈ db.stats, s.user_id = e.user_id) ∧
  (∀ s ∈ db.stats,
    s.avg_session_duration = PyNum.fin (qmean (userDurationsQ db s.user_id)))

/-! Concrete payloads and states used by the witnesses and
counterexamples. -/

def pClick : Payload :=
  { user_id := some "u1", event_id := some "e1", event_type := some "click",
    timestamp := some 0, amount := none, duration := none,
    email := none, first_name := none, last_name := none, country := none }

/-- A video event with a numeric duration. -/
def pVid (i : Nat) (d : ℚ) : Payload :=
  { pClick with event_id := some ("v" ++ toString i),
                event_type := some "video",
                duration := some (JVal.num (PyNum.fin d)) }

def pPurchase : Payload :=
  { pClick with event_id := some "e2", event_type := some "purchase",
                amount := some (JVal.num (PyNum.fin 50)) }

def pNegAmount : Payload :=
  { pClick with event_type := some "purchase",
                amount := some (JVal.num (PyNum.fin (-5))) }

def pInfAmount : Payload :=
  { pClick with event_type := some "purchase",
                amount := some (JVal.num PyNum.inf) }

def pBadDuration : Payload :=
  { pClick with duration := some (JVal.badStr "abc") }

def dbClick : DB := (store_event DB.empty pClick [] false).2

/-- Scenario D state: three video events with durations 10, 20, 30. -/
def runD : DB := runStore DB.empty [pVid 1 10, pVid 2 20, pVid 3 30]

def statsD : StatsRow := (findStats runD "u1").getD (StatsRow.init "u1")

/-- Durations 10 then 0: the zero duration is stored on the event row but
skipped by the running-average update. -/
def runZ : DB := runStore DB.empty [pVid 1 10, pVid 2 0]

def dbVid : DB := (store_event DB.empty (pVid 1 10) [] false).2

def statsVid : StatsRow := (findStats dbVid "u1").getD (StatsRow.init "u1")

def statsClick : StatsRow := (findStats dbClick "u1").getD (StatsRow.init "u1")

end Analytics

namespace Analytics

/-! ## Basic lemmas about validation and the shape of `store_event` -/

/-- A payload that passes validation has no missing required fields. -/
theorem valid_missing {p : Payload} (h : (validate_event p).1 = true) :
    missingFields p = [] := by
  by_cases hm : missingFields p = []
  · exact hm
  · exfalso
    unfold validate_event at h
    rw [if_pos hm] at h
    simp at h

/-- A payload that passes validation carries a user identifier. -/
theorem valid_uid {p : Payload} (h : (validate_event p).1 = true) :
    ∃ uid, p.user_id = some uid := by
  have hm := valid_missing h
  cases hu : p.user_id with
  | none => exfalso; unfold missingFields at hm; rw [hu] at hm; simp at hm
  | some u => exact ⟨u, rfl⟩

/-- A payload that passes validation carries an event identifier. -/
theorem valid_eid {p : Payload} (h : (validate_event p).1 = true) :
    ∃ eid, p.event_id = some eid := by
  have hm := valid_missing h
  cases he : p.event_id with
  | none => exfalso; unfold missingFields at hm; rw [he] at hm; simp at hm
  | some e => exact ⟨e, rfl⟩

/-- A payload that passes validation carries an event type. -/
theorem valid_etype {p : Payload} (h : (validate_event p).1 = true) :
    ∃ et, p.event_type = some et := by
  have hm := valid_missing h
  cases het : p.event_type with
  | none => exfalso; unfold missingFields at hm; rw [het] at hm; simp at hm
  | some et => exact ⟨et, rfl⟩

/-- A payload that passes validation carries a timestamp. -/
theorem valid_ts {p : Payload} (h : (validate_event p).1 = true) :
    ∃ ts, p.timestamp = some ts := by
  have hm := valid_missing h
  cases ht : p.timestamp with
  | none => exfalso; unfold missingFields at hm; rw [ht] at hm; simp at hm
  | some t => exact ⟨t, rfl⟩

/-- Case analysis on `store_event`: either it leaves the database unchanged
(validation failure, duplicate, raised error, or commit-time race), or it
performs the single successful write described by `applyWrite`. -/
theorem store_event_write_shape (db : DB) (p : Payload) (conc : List String)
    (f : Bool) :
    (store_event db p conc f).2 = db ∨
    ∃ uid eid etype ts durLocal oldCount rowDur amt,
      p.user_id = some uid ∧ p.event_id = some eid ∧
      p.event_type = some etype ∧ p.timestamp = some ts ∧
      findEvent db eid = none ∧
      durStep db p uid = Except.ok (durLocal, oldCount) ∧
      rowDurVal p = Except.ok rowDur ∧
      amountVal p etype = Except.ok amt ∧
      store_event db p conc f =
        (Except.ok (some eid),
         applyWrite db p uid eid etype ts durLocal oldCount rowDur amt) := by
  cases hv : validate_event p with
  | mk b msg =>
  cases b with
  | false => exact Or.inl (by simp [store_event, hv])
  | true =>
  cases hu : p.user_id with
  | none => exact Or.inl (by simp [store_event, hv, hu])
  | some uid =>
  cases he : p.event_id with
  | none => exact Or.inl (by simp [store_event, hv, hu, he])
  | some eid =>
  cases het : p.event_type with
  | none => exact Or.inl (by simp [store_event, hv, hu, he, het])
  | some etype =>
  cases hts : p.timestamp with
  | none => exact Or.inl (by simp [store_event, hv, hu, he, het, hts])
  | some ts =>
  cases hfe : findEvent db eid with
  | some ev => exact Or.inl (by simp [store_event, hv, hu, he, het, hts, hfe])
  | none =>
  cases hds : durStep db p uid with
  | error e1 =>
    exact Or.inl (by simp [store_event, hv, hu, he, het, hts, hfe, hds])
  | ok dc =>
  obtain ⟨dl, oc⟩ := dc
  cases hrd : rowDurVal p with
  | error e2 =>
    exact Or.inl (by simp [store_event, hv, hu, he, het, hts, hfe, hds, hrd])
  | ok rd =>
  cases ha : amountVal p etype with
  | error e3 =>
    exact Or.inl
      (by simp [store_event, hv, hu, he, het, hts, hfe, hds, hrd, ha])
  | ok amt =>
  cases hc : conc.contains eid with
  | true =>
    have hm : eid ∈ conc := by simpa using hc
    exact Or.inl
      (by simp [store_event, hv, hu, he, het, hts, hfe, hds, hrd, ha, hm])
  | false =>
  have hm : eid ∉ conc := by simpa using hc
  cases f with
  | true =>
    exact Or.inl
      (by simp [store_event, hv, hu, he, het, hts, hfe, hds, hrd, ha, hm])
  | false =>
  refine Or.inr
    ⟨uid, eid, etype, ts, dl, oc, rd, amt, rfl, rfl, rfl, rfl, hfe, hds, rfl,
     ha, ?_⟩
  simp [store_event, hv, hu, he, het, hts, hfe, hds, hrd, ha, hm]

/-- Every raised error leaves the database unchanged: each `raise` path of
`store_event` rolls the session back first. -/
theorem store_error_state {db : DB} {p : Payload} {conc : List String}
    {f : Bool} {e : PyErr}
    (h : (store_event db p conc f).1 = Except.error e) :
    (store_event db p conc f).2 = db := by
  rcases store_event_write_shape db p conc f with h2 |
    ⟨uid, eid, etype, ts, dl, oc, rd, amt, _, _, _, _, _, _, _, _, heq⟩
  · exact h2
  · rw [heq] at h
    simp at h

end Analytics

namespace Analytics

/-- After a successful validation, the `Decimal` conversion of the amount
cannot fail (for purchases the validation checked the amount, for other
event kinds no conversion happens). -/
theorem amountVal_ok {p : Payload} {etype : String}
    (h : (validate_event p).1 = true) (he : p.event_type = some etype) :
    ∃ v, amountVal p etype = Except.ok v := by
  by_cases hp : etype = "purchase"
  · subst hp
    have hm := valid_missing h
    unfold validate_event at h
    rw [if_neg (not_not_intro hm), he] at h
    simp only [beq_self_eq_true, if_true] at h
    cases ham : p.amount with
    | none => rw [ham] at h; simp at h
    | some a =>
      rw [ham] at h
      cases hpf : pyFloat a with
      | none => simp [hpf] at h
      | some x =>
        refine ⟨x, ?_⟩
        simp [amountVal, ham, hpf]
  · refine ⟨PyNum.fin 0, ?_⟩
    simp [amountVal, hp]

/-! ## Field bookkeeping for the stats-update steps -/

theorem statsAvgStep_user_id (s : StatsRow) (dl : Option PyNum)
    (oc : Option Nat) : (statsAvgStep s dl oc).user_id = s.user_id := by
  rcases dl with _ | d <;> rcases oc with _ | n <;>
    (simp only [statsAvgStep]; try (split <;> rfl))

theorem statsAvgStep_total_events (s : StatsRow) (dl : Option PyNum)
    (oc : Option Nat) : (statsAvgStep s dl oc).total_events = s.total_events := by
  rcases dl with _ | d <;> rcases oc with _ | n <;>
    (simp only [statsAvgStep]; try (split <;> rfl))

theorem statsAvgStep_total_purchases (s : StatsRow) (dl : Option PyNum)
    (oc : Option Nat) :
    (statsAvgStep s dl oc).total_purchases = s.total_purchases := by
  rcases dl with _ | d <;> rcases oc with _ | n <;>
    (simp only [statsAvgStep]; try (split <;> rfl))

theorem statsPurchaseStep_user_id (s : StatsRow) (etype : String) (ts : Int)
    (amt : PyNum) : (statsPurchaseStep s etype ts amt).user_id = s.user_id := by
  unfold statsPurchaseStep; split <;> rfl

theorem statsPurchaseStep_avg (s : StatsRow) (etype : String) (ts : Int)
    (amt : PyNum) :
    (statsPurchaseStep s etype ts amt).avg_session_duration =
      s.avg_session_duration := by
  unfold statsPurchaseStep; split <;> rfl

theorem statsPurchaseStep_total_events (s : StatsRow) (etype : String)
    (ts : Int) (amt : PyNum) :
    (statsPurchaseStep s etype ts amt).total_events = s.total_events := by
  unfold statsPurchaseStep; split <;> rfl

/-- The score recomputed at the end of step 5 is exactly the placeholder
formula of the final counter values. -/
theorem updatedStats_score (s : StatsRow) (etype : String) (ts : Int)
    (dl : Option PyNum) (oc : Option Nat) (amt : PyNum) :
    (updatedStats s etype ts dl oc amt).engagement_score =
      engagementScore (updatedStats s etype ts dl oc amt).total_events
        (updatedStats s etype ts dl oc amt).total_purchases := rfl

theorem updatedStats_user_id (s : StatsRow) (etype : String) (ts : Int)
    (dl : Option PyNum) (oc : Option Nat) (amt : PyNum) :
    (updatedStats s etype ts dl oc amt).user_id = s.user_id := by
  unfold updatedStats statsScoreStep statsCountStep
  rw [statsPurchaseStep_user_id]
  exact statsAvgStep_user_id s dl oc

theorem updatedStats_avg (s : StatsRow) (etype : String) (ts : Int)
    (dl : Option PyNum) (oc : Option Nat) (amt : PyNum) :
    (updatedStats s etype ts dl oc amt).avg_session_duration =
      (statsAvgStep s dl oc).avg_session_duration := by
  unfold updatedStats statsScoreStep statsCountStep
  rw [statsPurchaseStep_avg]

theorem updatedStats_total_events (s : StatsRow) (etype : String) (ts : Int)
    (dl : Option PyNum) (oc : Option Nat) (amt : PyNum) :
    (updatedStats s etype ts dl oc amt).total_events = s.total_events + 1 := by
  unfold updatedStats statsScoreStep statsCountStep
  rw [statsPurchaseStep_total_events]
  rw [statsAvgStep_total_events]

end Analytics

namespace Analytics

/-! ## Lemmas about the stats upsert and the duration lists -/

theorem bool_not_true {b : Bool} (h : ¬ b = true) : b = false := by
  cases b
  · rfl
  · exact absurd rfl h

theorem mem_upsertStats {l : List StatsRow} {t s : StatsRow}
    (h : s ∈ upsertStats l t) :
    s = t ∨ (s ∈ l ∧ (s.user_id == t.user_id) = false) := by
  unfold upsertStats at h
  by_cases ha : l.any (fun r => r.user_id == t.user_id) = true
  · rw [if_pos ha] at h
    obtain ⟨a, hal, hae⟩ := List.mem_map.mp h
    by_cases hb : (a.user_id == t.user_id) = true
    · rw [if_pos hb] at hae
      exact Or.inl hae.symm
    · rw [if_neg hb] at hae
      subst hae
      exact Or.inr ⟨hal, bool_not_true hb⟩
  · rw [if_neg ha] at h
    rcases List.mem_append.mp h with hl | hr
    · refine Or.inr ⟨hl, bool_not_true ?_⟩
      intro hb
      exact ha (List.any_eq_true.mpr ⟨s, hl, hb⟩)
    · exact Or.inl (List.mem_singleton.mp hr)

theorem upsertStats_self_mem (l : List StatsRow) (t : StatsRow) :
    t ∈ upsertStats l t := by
  unfold upsertStats
  by_cases ha : l.any (fun r => r.user_id == t.user_id) = true
  · rw [if_pos ha]
    rw [List.any_eq_true] at ha
    obtain ⟨a, hal, hb⟩ := ha
    exact List.mem_map.mpr ⟨a, hal, by rw [if_pos hb]⟩
  · rw [if_neg ha]
    exact List.mem_append.mpr (Or.inr (List.mem_singleton.mpr rfl))

theorem upsertStats_keeps_uid {l : List StatsRow} (t : StatsRow) {s : StatsRow}
    (hs : s ∈ l) : ∃ r ∈ upsertStats l t, r.user_id = s.user_id := by
  by_cases hb : (s.user_id == t.user_id) = true
  · refine ⟨t, upsertStats_self_mem l t, ?_⟩
    have h2 : s.user_id = t.user_id := by simpa using hb
    exact h2.symm
  · unfold upsertStats
    by_cases ha : l.any (fun r => r.user_id == t.user_id) = true
    · rw [if_pos ha]
      refine ⟨s, List.mem_map.mpr ⟨s, hs, ?_⟩, rfl⟩
      rw [if_neg hb]
    · rw [if_neg ha]
      exact ⟨s, List.mem_append.mpr (Or.inl hs), rfl⟩

theorem find?_map_replace (l : List StatsRow) (t : StatsRow)
    (ha : ∃ a ∈ l, (a.user_id == t.user_id) = true) :
    (l.map (fun r => if r.user_id == t.user_id then t else r)).find?
      (fun r => r.user_id == t.user_id) = some t := by
  induction l with
  | nil =>
    obtain ⟨a, hal, _⟩ := ha
    exact absurd hal (List.not_mem_nil a)
  | cons a as ih =>
    simp only [List.map_cons]
    by_cases hb : (a.user_id == t.user_id) = true
    · rw [if_pos hb]
      exact List.find?_cons_of_pos _ (by simp)
    · rw [if_neg hb]
      have hb2 : (a.user_id == t.user_id) = false := bool_not_true hb
      simp only [List.find?, hb2]
      apply ih
      obtain ⟨x, hx, hxe⟩ := ha
      rcases List.mem_cons.mp hx with h1 | h2
      · exact absurd (h1 ▸ hxe) hb
      · exact ⟨x, h2, hxe⟩

theorem find?_append_self (l : List StatsRow) (t : StatsRow)
    (ha : ∀ a ∈ l, ¬ (a.user_id == t.user_id) = true) :
    (l ++ [t]).find? (fun r => r.user_id == t.user_id) = some t := by
  induction l with
  | nil =>
    simp only [List.nil_append]
    exact List.find?_cons_of_pos _ (by simp)
  | cons a as ih =>
    have hb2 : (a.user_id == t.user_id) = false :=
      bool_not_true (ha a (List.mem_cons_self a as))
    rw [List.cons_append]
    simp only [List.find?, hb2]
    exact ih (fun x hx => ha x (List.mem_cons_of_mem a hx))

/-- The freshly updated stats row is what the stats lookup for its user
finds after the upsert. -/
theorem find?_upsertStats_self (l : List StatsRow) (t : StatsRow) :
    (upsertStats l t).find? (fun r => r.user_id == t.user_id) = some t := by
  unfold upsertStats
  by_cases ha : l.any (fun r => r.user_id == t.user_id) = true
  · rw [if_pos ha]
    rw [List.any_eq_true] at ha
    exact find?_map_replace l t ha
  · rw [if_neg ha]
    apply find?_append_self
    intro a hal hae
    exact ha (List.any_eq_true.mpr ⟨a, hal, hae⟩)

theorem durListL_append (evs : List EventRow) (e : EventRow) (uid : String) :
    durListL (evs ++ [e]) uid = durListL evs uid ++ durListL [e] uid := by
  unfold durListL
  rw [List.filterMap_append]

theorem durCountL_append (evs : List EventRow) (e : EventRow) (uid : String) :
    durCountL (evs ++ [e]) uid = durCountL evs uid + durCountL [e] uid := by
  unfold durCountL
  rw [List.filter_append, List.length_append]

/-- When every stored duration is `NULL` or finite, the SQL count of
duration-carrying rows equals the length of the collected duration list. -/
theorem durCountL_eq_length (evs : List EventRow) (uid : String)
    (h : ∀ e ∈ evs,
      e.duration = none ∨ ∃ q : ℚ, e.duration = some (PyNum.fin q)) :
    durCountL evs uid = (durListL evs uid).length := by
  induction evs with
  | nil => rfl
  | cons e es ih =>
    have he := h e (List.mem_cons_self e es)
    have ih2 := ih (fun x hx => h x (List.mem_cons_of_mem e hx))
    unfold durCountL durListL at ih2 ⊢
    simp only [List.filter_cons, List.filterMap_cons]
    by_cases hu : (e.user_id == uid) = true
    · rcases he with hn | ⟨q, hq⟩
      · simp [hu, hn, ih2]
      · simp [hu, hq, ih2]
    · simp [bool_not_true hu, ih2]

theorem durListL_nil_of_absent (evs : List EventRow) (uid : String)
    (h : ∀ e ∈ evs, (e.user_id == uid) = false) : durListL evs uid = [] := by
  unfold durListL
  rw [List.filterMap_eq_nil_iff]
  intro e he
  simp [h e he]

theorem durCountL_zero_of_absent (evs : List EventRow) (uid : String)
    (h : ∀ e ∈ evs, (e.user_id == uid) = false) : durCountL evs uid = 0 := by
  unfold durCountL
  simp only [List.length_eq_zero, List.filter_eq_nil_iff]
  intro e he
  simp [h e he]

end Analytics

namespace Analytics

/-- Characterisation of the duration handling for a payload whose duration
field is absent or a nonzero finite number: either nothing is recorded, or
the running-average update sees exactly the finite value that is also
stored on the event row, together with the pre-insert count. -/
theorem durStep_charac {db : DB} {p : Payload} {uid : String}
    {dl : Option PyNum} {oc : Option Nat} {rd : Option PyNum}
    (hok : durOKb p = true)
    (hds : durStep db p uid = Except.ok (dl, oc))
    (hrd : rowDurVal p = Except.ok rd) :
    (dl = none ∧ oc = none ∧ rd = none) ∨
    (∃ q : ℚ, q ≠ 0 ∧ dl = some (PyNum.fin q) ∧
      oc = some (durationCount db uid) ∧ rd = some (PyNum.fin q)) := by
  unfold durStep at hds
  unfold rowDurVal at hrd
  cases hd : p.duration with
  | none =>
    rw [hd] at hds hrd
    simp at hds hrd
    exact Or.inl ⟨hds.1.symm, hds.2.symm, hrd.symm⟩
  | some dv =>
    right
    have hok2 : ∃ q : ℚ, q ≠ 0 ∧ pyFloat dv = some (PyNum.fin q) ∧
        dv.truthy = true := by
      unfold durOKb at hok
      rw [hd] at hok
      cases dv with
      | num x =>
        cases x with
        | fin q =>
          refine ⟨q, by simpa using hok, rfl, ?_⟩
          simpa [JVal.truthy] using hok
        | inf => simp at hok
        | ninf => simp at hok
        | nan => simp at hok
      | numStr x =>
        cases x with
        | fin q => exact ⟨q, by simpa using hok, rfl, rfl⟩
        | inf => simp at hok
        | ninf => simp at hok
        | nan => simp at hok
      | badStr s => simp at hok
    obtain ⟨q, hq, hpf, htr⟩ := hok2
    rw [hd] at hds hrd
    simp [htr, hpf] at hds hrd
    exact ⟨q, hq, hds.1.symm, hds.2.symm, hrd.symm⟩

/-! ## The engagement-score invariant (reachable stats states) -/

theorem inv8_step (db : DB) (p : Payload) (conc : List String) (f : Bool)
    (hInv : Inv8 db) : Inv8 (store_event db p conc f).2 := by
  rcases store_event_write_shape db p conc f with hsame |
    ⟨uid, eid, etype, ts, dl, oc, rd, amt, hu, he, het, hts, hfe, hds, hrd,
     ha, heqn⟩
  · rw [hsame]; exact hInv
  · have hdb : (store_event db p conc f).2 =
        applyWrite db p uid eid etype ts dl oc rd amt := by rw [heqn]
    rw [hdb]
    intro s hs
    unfold applyWrite at hs
    rcases mem_upsertStats hs with hnew | ⟨hold, _⟩
    · rw [hnew]
      exact updatedStats_score _ _ _ _ _ _
    · exact hInv s hold

theorem inv8_runStore (db : DB) (ps : List Payload) (hInv : Inv8 db) :
    Inv8 (runStore db ps) := by
  induction ps generalizing db with
  | nil => exact hInv
  | cons p ps ih =>
    unfold runStore
    exact ih _ (inv8_step db p [] false hInv)

theorem inv8_empty : Inv8 DB.empty := by
  intro s hs
  simp [DB.empty] at hs

end Analytics

namespace Analytics

/-! ## Supporting lemmas for the running-average invariant -/

theorem applyWrite_events (db : DB) (p : Payload) (uid eid etype : String)
    (ts : Int) (dl : Option PyNum) (oc : Option Nat) (rd : Option PyNum)
    (amt : PyNum) :
    (applyWrite db p uid eid etype ts dl oc rd amt).events =
      db.events ++ [{ event_id := eid, user_id := uid, event_type := etype,
                      timestamp := ts, duration := rd }] := rfl

theorem applyWrite_stats (db : DB) (p : Payload) (uid eid etype : String)
    (ts : Int) (dl : Option PyNum) (oc : Option Nat) (rd : Option PyNum)
    (amt : PyNum) :
    (applyWrite db p uid eid etype ts dl oc rd amt).stats =
      upsertStats db.stats
        (updatedStats ((findStats db uid).getD (StatsRow.init uid)) etype ts
          dl oc amt) := rfl

theorem statsAvgStep_none (s : StatsRow) (oc : Option Nat) :
    statsAvgStep s none oc = s := by
  cases oc <;> rfl

theorem statsAvgStep_avg_pos (s : StatsRow) (d : PyNum) (n : Nat)
    (h : 0 < n) :
    (statsAvgStep s (some d) (some n)).avg_session_duration =
      PyNum.divNat (PyNum.add (PyNum.mulNat s.avg_session_duration n) d)
        (n + 1) := by
  simp only [statsAvgStep]
  rw [if_pos h]

theorem statsAvgStep_avg_zero (s : StatsRow) (d : PyNum) :
    (statsAvgStep s (some d) (some 0)).avg_session_duration = d := by
  simp only [statsAvgStep]
  rw [if_neg (lt_irrefl 0)]

/-- The (possibly freshly created) stats row targeted by step 5 belongs to
the user of the incoming event. -/
theorem getD_stats_uid (db : DB) (uid : String) :
    ((findStats db uid).getD (StatsRow.init uid)).user_id = uid := by
  cases hfs : findStats db uid with
  | none => rfl
  | some st =>
    simp only [Option.getD_some]
    simpa using List.find?_some hfs

/-- If a user has no stats row, no stored event belongs to that user
(every stored event created or updated the stats row of its user). -/
theorem events_absent_of_no_stats {db : DB} {uid : String}
    (h2 : ∀ e ∈ db.events, ∃ s ∈ db.stats, s.user_id = e.user_id)
    (hfs : findStats db uid = none) :
    ∀ e ∈ db.events, (e.user_id == uid) = false := by
  intro e he
  apply bool_not_true
  intro hbe
  obtain ⟨s, hs, hsu⟩ := h2 e he
  rw [findStats, List.find?_eq_none] at hfs
  apply hfs s hs
  have heq : e.user_id = uid := by simpa using hbe
  simp [hsu, heq]

/-- Under the invariant, the stats row read (or freshly initialised) at
step 5 carries the mean of the stored durations of the user. -/
theorem s0_avg (db : DB) (uid : String) (hInv : Inv2 db) :
    ((findStats db uid).getD (StatsRow.init uid)).avg_session_duration =
      PyNum.fin (qmean (userDurationsQ db uid)) := by
  cases hfs : findStats db uid with
  | none =>
    simp only [Option.getD_none]
    have habs := events_absent_of_no_stats hInv.2.1 hfs
    rw [userDurationsQ, durListL_nil_of_absent _ _ habs]
    simp [StatsRow.init, qmean]
  | some st =>
    simp only [Option.getD_some]
    have hm := hInv.2.2 st (List.mem_of_find?_eq_some hfs)
    have hu : st.user_id = uid := by simpa using List.find?_some hfs
    rw [hm, hu]

/-- Under the invariant, the SQL count of the duration-carrying events of a user
equals the length of the collected duration list. -/
theorem durationCount_eq (db : DB) (uid : String)
    (h1 : ∀ e ∈ db.events,
      e.duration = none ∨ ∃ q : ℚ, q ≠ 0 ∧ e.duration = some (PyNum.fin q)) :
    durationCount db uid = (userDurationsQ db uid).length := by
  apply durCountL_eq_length
  intro e he
  rcases h1 e he with hn | ⟨q, _, hqe⟩
  · exact Or.inl hn
  · exact Or.inr ⟨q, hqe⟩

/-- Component (ii) of the invariant survives the write: every stored event
still has a stats row for its user. -/
theorem applyWrite_events_have_stats (db : DB) (p : Payload)
    (uid eid etype : String) (ts : Int) (dl : Option PyNum)
    (oc : Option Nat) (rd : Option PyNum) (amt : PyNum)
    (h2 : ∀ e ∈ db.events, ∃ s ∈ db.stats, s.user_id = e.user_id) :
    ∀ e ∈ (applyWrite db p uid eid etype ts dl oc rd amt).events,
      ∃ s ∈ (applyWrite db p uid eid etype ts dl oc rd amt).stats,
        s.user_id = e.user_id := by
  intro e he
  rw [applyWrite_events] at he
  rw [applyWrite_stats]
  rcases List.mem_append.mp he with hold | hnew
  · obtain ⟨s, hs, hsu⟩ := h2 e hold
    obtain ⟨r, hr, hru⟩ := upsertStats_keeps_uid _ hs
    exact ⟨r, hr, hru.trans hsu⟩
  · rw [List.mem_singleton.mp hnew]
    refine ⟨_, upsertStats_self_mem _ _, ?_⟩
    rw [updatedStats_user_id]
    exact getD_stats_uid db uid

/-- A stats row of a different user keeps holding the mean of its own
durations of its own user: the appended event row contributes nothing to that
user. -/
theorem applyWrite_old_avg (db : DB) (p : Payload) (uid eid etype : String)
    (ts : Int) (dl : Option PyNum) (oc : Option Nat) (rd : Option PyNum)
    (amt : PyNum) {s' : StatsRow} (hold : s' ∈ db.stats)
    (h3 : ∀ s ∈ db.stats,
      s.avg_session_duration = PyNum.fin (qmean (userDurationsQ db s.user_id)))
    (hneu : (uid == s'.user_id) = false) :
    s'.avg_session_duration =
      PyNum.fin (qmean (userDurationsQ
        (applyWrite db p uid eid etype ts dl oc rd amt) s'.user_id)) := by
  unfold userDurationsQ
  rw [applyWrite_events, durListL_append]
  have hsing : durListL [{ event_id := eid, user_id := uid,
                           event_type := etype, timestamp := ts,
                           duration := rd }] s'.user_id = [] := by
    have hne2 : ¬ uid = s'.user_id := by simpa using hneu
    simp [durListL, hne2]
  rw [hsing, List.append_nil]
  exact h3 s' hold

end Analytics

namespace Analytics

/-- One fault-free, race-free `store_event` call preserves the
running-average invariant, provided the duration of the payload (when present)
is a nonzero finite number. -/
theorem inv2_step (db : DB) (p : Payload) (hok : durOKb p = true)
    (hInv : Inv2 db) : Inv2 (store_event db p [] false).2 := by
  rcases store_event_write_shape db p [] false with hsame |
    ⟨uid, eid, etype, ts, dl, oc, rd, amt, hu, he, het, hts, hfe, hds, hrd,
     ha, heqn⟩
  · rw [hsame]; exact hInv
  have hdb : (store_event db p [] false).2 =
      applyWrite db p uid eid etype ts dl oc rd amt := by rw [heqn]
  rw [hdb]
  obtain ⟨h1, h2, h3⟩ := hInv
  have hnuid : (updatedStats ((findStats db uid).getD (StatsRow.init uid))
      etype ts dl oc amt).user_id = uid := by
    rw [updatedStats_user_id]
    exact getD_stats_uid db uid
  rcases durStep_charac hok hds hrd with ⟨hdl, hoc, hrdn⟩ |
    ⟨q, hq, hdl, hoc, hrdq⟩
  -- Case A: the payload carries no duration; nothing numeric changes.
  · subst hdl
    subst hoc
    subst hrdn
    refine ⟨?_, applyWrite_events_have_stats db p uid eid etype ts none none
      none amt h2, ?_⟩
    · intro e he
      rw [applyWrite_events] at he
      rcases List.mem_append.mp he with hold | hnew
      · exact h1 e hold
      · rw [List.mem_singleton.mp hnew]
        exact Or.inl rfl
    · intro s' hs'
      rw [applyWrite_stats] at hs'
      rcases mem_upsertStats hs' with hnew | ⟨hold, hne⟩
      · rw [hnew, updatedStats_avg, statsAvgStep_none, hnuid]
        unfold userDurationsQ
        rw [applyWrite_events, durListL_append]
        have hsing : durListL [{ event_id := eid, user_id := uid,
                                 event_type := etype, timestamp := ts,
                                 duration := none }] uid = [] := by
          simp [durListL]
        rw [hsing, List.append_nil]
        exact s0_avg db uid ⟨h1, h2, h3⟩
      · rw [hnuid] at hne
        have hneu : (uid == s'.user_id) = false := by
          have hne3 : s'.user_id ≠ uid := by simpa using hne
          simpa using (Ne.symm hne3)
        exact applyWrite_old_avg db p uid eid etype ts none none none amt
          hold h3 hneu
  -- Case B: the payload carries the nonzero finite duration q.
  · subst hdl
    subst hoc
    subst hrdq
    refine ⟨?_, applyWrite_events_have_stats db p uid eid etype ts
      (some (PyNum.fin q)) (some (durationCount db uid))
      (some (PyNum.fin q)) amt h2, ?_⟩
    · intro e he
      rw [applyWrite_events] at he
      rcases List.mem_append.mp he with hold | hnew
      · exact h1 e hold
      · rw [List.mem_singleton.mp hnew]
        exact Or.inr ⟨q, hq, rfl⟩
    · intro s' hs'
      rw [applyWrite_stats] at hs'
      rcases mem_upsertStats hs' with hnew | ⟨hold, hne⟩
      · rw [hnew, updatedStats_avg, hnuid]
        unfold userDurationsQ
        rw [applyWrite_events, durListL_append]
        have hsing : durListL [{ event_id := eid, user_id := uid,
                                 event_type := etype, timestamp := ts,
                                 duration := some (PyNum.fin q) }] uid
          = [q] := by
          simp [durListL]
        rw [hsing]
        have hlen : durationCount db uid = (durListL db.events uid).length :=
          durationCount_eq db uid h1
        by_cases hpos : 0 < durationCount db uid
        · rw [statsAvgStep_avg_pos _ _ _ hpos]
          have hL : durListL db.events uid ≠ [] := by
            intro h0
            rw [h0] at hlen
            simp at hlen
            omega
          rw [s0_avg db uid ⟨h1, h2, h3⟩]
          simp only [PyNum.mulNat, PyNum.add, PyNum.divNat]
          congr 1
          simp only [userDurationsQ]
          rw [qmean, if_neg hL, qmean,
            if_neg (by simp : ¬ durListL db.events uid ++ [q] = [])]
          rw [hlen]
          rw [List.sum_append, List.length_append]
          have hlp : (0:ℚ) < ((durListL db.events uid).length : ℚ) := by
            exact_mod_cast List.length_pos.mpr hL
          rw [div_mul_cancel₀ _ (ne_of_gt hlp)]
          push_cast
          simp
        · have hn0 : durationCount db uid = 0 := Nat.eq_zero_of_not_pos hpos
          rw [hn0, statsAvgStep_avg_zero]
          have hLnil : durListL db.events uid = [] := by
            rw [hn0] at hlen
            exact (List.length_eq_zero.mp hlen.symm)
          rw [hLnil]
          simp [qmean]
      · rw [hnuid] at hne
        have hneu : (uid == s'.user_id) = false := by
          have hne3 : s'.user_id ≠ uid := by simpa using hne
          simpa using (Ne.symm hne3)
        exact applyWrite_old_avg db p uid eid etype ts (some (PyNum.fin q))
          (some (durationCount db uid)) (some (PyNum.fin q)) amt hold h3 hneu

theorem inv2_runStore (db : DB) (ps : List Payload)
    (hok : ∀ p ∈ ps, durOKb p = true) (hInv : Inv2 db) :
    Inv2 (runStore db ps) := by
  induction ps generalizing db with
  | nil => exact hInv
  | cons p ps ih =>
    unfold runStore
    exact ih _ (fun x hx => hok x (List.mem_cons_of_mem p hx))
      (inv2_step db p (hok p (List.mem_cons_self p ps)) hInv)

theorem inv2_empty : Inv2 DB.empty := by
  refine ⟨?_, ?_, ?_⟩ <;> intro x hx <;> simp [DB.empty] at hx

end Analytics

namespace Analytics

/-- C8: after every accepted event of every fault-free run from the empty
database, the engagement score of each stats row equals
`min(100, total_events * 0.5 + total_purchases * 5.0)` recomputed from its
own counters; consequently the score lies in the closed interval [0, 100],
and the formula is monotone non-decreasing in both counters. -/
theorem engagement_score_thm (ps : List Payload) (s : StatsRow)
    (hs : s ∈ (runStore DB.empty ps).stats) :
    s.engagement_score = engagementScore s.total_events s.total_purchases ∧
    0 ≤ s.engagement_score ∧ s.engagement_score ≤ 100 ∧
    ∀ e1 e2 p1 p2 : Nat, e1 ≤ e2 → p1 ≤ p2 →
      engagementScore e1 p1 ≤ engagementScore e2 p2 := by
  have hscore := inv8_runStore DB.empty ps inv8_empty s hs
  refine ⟨hscore, ?_, ?_, ?_⟩
  · rw [hscore]
    unfold engagementScore
    apply le_min
    · norm_num
    · positivity
  · rw [hscore]
    exact min_le_left _ _
  · intro e1 e2 p1 p2 he hp
    unfold engagementScore
    apply min_le_min le_rfl
    apply add_le_add
    · apply mul_le_mul_of_nonneg_right
      · exact_mod_cast he
      · norm_num
    · apply mul_le_mul_of_nonneg_right
      · exact_mod_cast hp
      · norm_num

/-- C8 witness: the single-click run, with the hypotheses discharged by
evaluation. -/
theorem engagement_score_wit :
    statsClick.engagement_score =
      engagementScore statsClick.total_events statsClick.total_purchases ∧
    0 ≤ statsClick.engagement_score ∧ statsClick.engagement_score ≤ 100 ∧
    ∀ e1 e2 p1 p2 : Nat, e1 ≤ e2 → p1 ≤ p2 →
      engagementScore e1 p1 ≤ engagementScore e2 p2 :=
  engagement_score_thm [pClick] statsClick (by with_unfolding_all decide)

/-- C2 counterexample: after storing durations 10 and 0 for user u1, the
stored duration-carrying events are [10, 0] with arithmetic mean 5, but
`avg_session_duration` stays 10 — the zero duration is stored on its event
row (duration-carrying) yet skipped by the running-average update, because
`if duration_value:` is false for 0. -/
theorem avg_zero_duration_cex :
    (findStats runZ "u1").map StatsRow.avg_session_duration =
      some (PyNum.fin 10) ∧
    userDurationsQ runZ "u1" = [10, 0] ∧
    qmean (userDurationsQ runZ "u1") = 5 ∧
    (PyNum.fin 10 : PyNum) ≠ PyNum.fin (qmean (userDurationsQ runZ "u1")) := by
  with_unfolding_all decide

/-- C2 (amended): over fault-free runs in which the duration
field of every payload, when present, is a nonzero finite number, the
`avg_session_duration` of every user equals the arithmetic mean of the `duration` values
over exactly the stored duration-carrying events of that user (the column
default 0 when there are none), and the duration-carrying count agrees
with that event set. -/
theorem avg_mean_thm (ps : List Payload)
    (hok : ∀ p ∈ ps, durOKb p = true) (uid : String) (s : StatsRow)
    (hs : findStats (runStore DB.empty ps) uid = some s) :
    s.avg_session_duration =
      PyNum.fin (qmean (userDurationsQ (runStore DB.empty ps) uid)) ∧
    durationCount (runStore DB.empty ps) uid =
      (userDurationsQ (runStore DB.empty ps) uid).length := by
  obtain ⟨h1, h2, h3⟩ := inv2_runStore DB.empty ps hok inv2_empty
  have hmem : s ∈ (runStore DB.empty ps).stats :=
    List.mem_of_find?_eq_some hs
  have huid : s.user_id = uid := by simpa using List.find?_some hs
  refine ⟨?_, durationCount_eq _ uid h1⟩
  rw [← huid]
  exact h3 s hmem

/-- C2 witness: Scenario D (durations 10, 20, 30) gives average 20, the
mean of the three stored durations. -/
theorem avg_mean_wit :
    statsD.avg_session_duration =
      PyNum.fin (qmean (userDurationsQ runD "u1")) ∧
    durationCount runD "u1" = (userDurationsQ runD "u1").length :=
  avg_mean_thm [pVid 1 10, pVid 2 20, pVid 3 30]
    (by with_unfolding_all decide) "u1" statsD (by with_unfolding_all decide)

end Analytics

namespace Analytics

/-- A validation that reports success is the pair `(true, m)` for some
message. -/
theorem valid_exists_pair {p : Payload} (h : (validate_event p).1 = true) :
    ∃ m, validate_event p = (true, m) := by
  rcases hv : validate_event p with ⟨b, m⟩
  rw [hv] at h
  dsimp only at h
  subst h
  exact ⟨m, rfl⟩

/-- A duration field that is not an unparseable string cannot make step 4a
raise. -/
theorem durStep_ok_of_not_bad {db : DB} {p : Payload} {uid : String}
    (hdur : ∀ s, p.duration ≠ some (JVal.badStr s)) :
    ∃ dc, durStep db p uid = Except.ok dc := by
  unfold durStep
  cases hd : p.duration with
  | none => exact ⟨(none, none), rfl⟩
  | some dv =>
    have hpf : ∃ x, pyFloat dv = some x := by
      cases dv with
      | num x => exact ⟨x, rfl⟩
      | numStr x => exact ⟨x, rfl⟩
      | badStr s => exact absurd hd (hdur s)
    obtain ⟨x, hx⟩ := hpf
    by_cases ht : dv.truthy = true
    · exact ⟨(some x, some (durationCount db uid)), by simp [ht, hx]⟩
    · exact ⟨(none, none), by simp [bool_not_true ht]⟩

/-- A duration field that is not an unparseable string flushes cleanly. -/
theorem rowDurVal_ok_of_not_bad {p : Payload}
    (hdur : ∀ s, p.duration ≠ some (JVal.badStr s)) :
    ∃ rd, rowDurVal p = Except.ok rd := by
  unfold rowDurVal
  cases hd : p.duration with
  | none => exact ⟨none, rfl⟩
  | some dv =>
    cases dv with
    | num x => exact ⟨some x, by simp [pyFloat]⟩
    | numStr x => exact ⟨some x, by simp [pyFloat]⟩
    | badStr s => exact absurd hd (hdur s)

theorem findStats_upsert (l : List StatsRow) (t : StatsRow) (uid : String)
    (h : t.user_id = uid) :
    (upsertStats l t).find? (fun r => r.user_id == uid) = some t := by
  rw [← h]
  exact find?_upsertStats_self l t

/-- C3: a valid payload whose event identifier already has a stored event
is a no-op success: `store_event` returns that same identifier and leaves
the whole database — the stats of the user included — unchanged. -/
theorem duplicate_noop_thm (db : DB) (p : Payload) (conc : List String)
    (eid : String) (hval : (validate_event p).1 = true)
    (heid : p.event_id = some eid) (hdup : (findEvent db eid).isSome) :
    store_event db p conc false = (Except.ok (some eid), db) := by
  obtain ⟨uid, hu⟩ := valid_uid hval
  obtain ⟨et, het⟩ := valid_etype hval
  obtain ⟨ts, hts⟩ := valid_ts hval
  obtain ⟨m, hv⟩ := valid_exists_pair hval
  simp [store_event, hv, hu, heid, het, hts, hdup]

/-- C3 witness: Scenario C, storing the click event a second time. -/
theorem duplicate_noop_wit :
    store_event dbClick pClick [] false = (Except.ok (some "e1"), dbClick) :=
  duplicate_noop_thm dbClick pClick [] "e1" (by with_unfolding_all decide)
    rfl (by with_unfolding_all decide)

/-- C4 counterexample: with another writer having committed "e1" between
the duplicate check and the commit, `store_event` rolls back and returns
`None` (`Except.ok none`) — not the identifier of the event as the claim
states. -/
theorem race_duplicate_cex :
    store_event DB.empty pClick ["e1"] false = (Except.ok none, DB.empty) ∧
    (Except.ok none : Except PyErr (Option String)) ≠
      Except.ok (some "e1") := by
  constructor
  · with_unfolding_all rfl
  · simp

/-- C4 (amended): a uniqueness violation surfacing at commit time rolls
back and returns `None` — a no-op success value distinct from the
identifier returned by a pre-insert duplicate; the Coordinator counts it
on the duplicate counter and still commits the offset. -/
theorem race_duplicate_thm (cs : ConsumerState) (db : DB) (p : Payload)
    (conc : List String) (fault commitOk : Bool) (eid : String)
    (hval : (validate_event p).1 = true) (heid : p.event_id = some eid)
    (hnew : findEvent db eid = none)
    (hdur : ∀ s, p.duration ≠ some (JVal.badStr s))
    (hrace : conc.contains eid = true) :
    store_event db p conc fault = (Except.ok none, db) ∧
    process_message cs db p conc fault commitOk =
      ({ cs with duplicates := cs.duplicates + 1 }, db, true) := by
  obtain ⟨uid, hu⟩ := valid_uid hval
  obtain ⟨et, het⟩ := valid_etype hval
  obtain ⟨ts, hts⟩ := valid_ts hval
  obtain ⟨m, hv⟩ := valid_exists_pair hval
  obtain ⟨⟨dl, oc⟩, hds⟩ := @durStep_ok_of_not_bad db p uid hdur
  obtain ⟨rd, hrd⟩ := rowDurVal_ok_of_not_bad hdur
  obtain ⟨amt, hamt⟩ := amountVal_ok hval het
  have hmem : eid ∈ conc := by simpa using hrace
  have hs : store_event db p conc fault = (Except.ok none, db) := by
    simp [store_event, hv, hu, heid, het, hts, hnew, hds, hrd, hamt, hmem]
  refine ⟨hs, ?_⟩
  simp [process_message, hs]

/-- C4 witness: the race on "e1" over the empty database. -/
theorem race_duplicate_wit :
    store_event DB.empty pClick ["e1"] false = (Except.ok none, DB.empty) ∧
    process_message ConsumerState.init DB.empty pClick ["e1"] false true =
      ({ ConsumerState.init with duplicates := 1 }, DB.empty, true) :=
  race_duplicate_thm ConsumerState.init DB.empty pClick ["e1"] false true
    "e1" (by with_unfolding_all decide) rfl rfl
    (fun s => by simp [pClick]) (by decide)

/-- C5: every raised storage-layer error rolls the transaction back before
propagating — whenever `store_event` returns an error the database equals
the pre-call state, so no partial write is visible — and a failed
validation aborts with the `ValueError` carrying the validation reason,
before any write is attempted. -/
theorem rollback_thm (db : DB) (p : Payload) (conc : List String)
    (fault : Bool) :
    (∀ e, (store_event db p conc fault).1 = Except.error e →
      (store_event db p conc fault).2 = db) ∧
    (∀ m, validate_event p = (false, some m) →
      store_event db p conc fault =
        (Except.error (PyErr.valueError m), db)) := by
  refine ⟨fun e he => store_error_state he, fun m hm => ?_⟩
  simp [store_event, hm]

/-- C5 witness: the negative-amount purchase aborts with its validation
reason and leaves the empty database empty. -/
theorem rollback_wit :
    store_event DB.empty pNegAmount [] false =
      (Except.error (PyErr.valueError ("Invalid amount: " ++
        (PyNum.fin (-5)).str ++ " (must be positive)")), DB.empty) :=
  (rollback_thm DB.empty pNegAmount [] false).2 _
    (by with_unfolding_all decide)

/-- C6 counterexample: an accepted event whose duration value is 0 carries
a duration (the row stores duration 0, and the pre-insert count of
duration-carrying events is n = 1 > 0), so the claim predicts the new
average (10 * 1 + 0) / (1 + 1) = 5; but `if duration_value:` is false for
0, the update is skipped entirely, and the average stays 10. -/
theorem zero_duration_skip_cex :
    (store_event dbVid (pVid 2 0) [] false).1 = Except.ok (some "v2") ∧
    (pVid 2 0).duration = some (JVal.num (PyNum.fin 0)) ∧
    durationCount dbVid "u1" = 1 ∧
    (findStats (store_event dbVid (pVid 2 0) [] false).2 "u1").map
      StatsRow.avg_session_duration = some (PyNum.fin 10) ∧
    ((10 : ℚ) * 1 + 0) / (1 + 1) = 5 ∧ (5 : ℚ) ≠ 10 := by
  refine ⟨?_, ?_, ?_, ?_, ?_, ?_⟩
  · with_unfolding_all rfl
  · rfl
  · with_unfolding_all decide
  · with_unfolding_all decide
  · with_unfolding_all decide
  · with_unfolding_all decide

/-- C6 (amended): for an accepted, non-duplicate event carrying a truthy
duration — a nonzero number or a numeric string; a zero duration value is
stored on the event row but skipped by the update — with finite value q,
the running average is updated from the pre-insert count n of the stored
duration-carrying events of the user (not from total_events): the new
average is (old * n + q) / (n + 1) when n > 0 and q when n = 0, while
total_events is incremented by one in the same update. -/
theorem running_average_thm (db : DB) (p : Payload) (uid eid etype : String)
    (ts : Int) (dv : JVal) (q a : ℚ) (st : StatsRow)
    (hval : (validate_event p).1 = true)
    (hu : p.user_id = some uid) (heid : p.event_id = some eid)
    (het : p.event_type = some etype) (hts : p.timestamp = some ts)
    (hnew : findEvent db eid = none)
    (hdv : p.duration = some dv) (htr : dv.truthy = true)
    (hq : pyFloat dv = some (PyNum.fin q))
    (hst : findStats db uid = some st)
    (ha : st.avg_session_duration = PyNum.fin a) :
    ∃ st2, findStats (store_event db p [] false).2 uid = some st2 ∧
      st2.avg_session_duration = PyNum.fin
        (if 0 < durationCount db uid
          then (a * durationCount db uid + q) / (durationCount db uid + 1)
          else q) ∧
      st2.total_events = st.total_events + 1 := by
  obtain ⟨m, hv⟩ := valid_exists_pair hval
  obtain ⟨amt, hamt⟩ := amountVal_ok hval het
  have hds : durStep db p uid =
      Except.ok (some (PyNum.fin q), some (durationCount db uid)) := by
    simp [durStep, hdv, htr, hq]
  have hrd : rowDurVal p = Except.ok (some (PyNum.fin q)) := by
    simp [rowDurVal, hdv, hq]
  have hse : store_event db p [] false =
      (Except.ok (some eid),
       applyWrite db p uid eid etype ts (some (PyNum.fin q))
         (some (durationCount db uid)) (some (PyNum.fin q)) amt) := by
    simp [store_event, hv, hu, heid, het, hts, hnew, hds, hrd, hamt]
  rw [hse]
  have hgd : (findStats db uid).getD (StatsRow.init uid) = st := by
    rw [hst]
    rfl
  have huid : (updatedStats st etype ts (some (PyNum.fin q))
      (some (durationCount db uid)) amt).user_id = uid := by
    rw [updatedStats_user_id]
    simpa using List.find?_some hst
  refine ⟨updatedStats st etype ts (some (PyNum.fin q))
    (some (durationCount db uid)) amt, ?_, ?_, ?_⟩
  · unfold findStats
    rw [applyWrite_stats, hgd]
    exact findStats_upsert db.stats _ uid huid
  · rw [updatedStats_avg]
    by_cases hpos : 0 < durationCount db uid
    · rw [statsAvgStep_avg_pos _ _ _ hpos, ha, if_pos hpos]
      simp only [PyNum.mulNat, PyNum.add, PyNum.divNat]
      congr 1
      push_cast
      ring
    · rw [if_neg hpos]
      have h0 : durationCount db uid = 0 := Nat.eq_zero_of_not_pos hpos
      rw [h0, statsAvgStep_avg_zero]
  · rw [updatedStats_total_events]

/-- C6 witness: after one stored duration of 10, a duration of 30 updates
the average with n = 1 to (10 * 1 + 30) / 2 = 20. -/
theorem running_average_wit :
    ∃ st2, findStats (store_event dbVid (pVid 2 30) [] false).2 "u1" =
        some st2 ∧
      st2.avg_session_duration = PyNum.fin
        (if 0 < durationCount dbVid "u1"
          then (10 * durationCount dbVid "u1" + 30) /
            (durationCount dbVid "u1" + 1)
          else 30) ∧
      st2.total_events = statsVid.total_events + 1 :=
  running_average_thm dbVid (pVid 2 30) "u1" "v2" "video" 0
    (JVal.num (PyNum.fin 30)) 30 10 statsVid
    (by with_unfolding_all decide) rfl rfl rfl rfl
    (by with_unfolding_all decide) rfl (by with_unfolding_all decide)
    (by with_unfolding_all decide) (by with_unfolding_all decide)
    (by with_unfolding_all decide)

end Analytics

namespace Analytics

/-- C9 counterexample: for a message whose event id "e1" is already
stored, `store_event` reports the duplicate no-op by returning the id
itself, and the Coordinator then increments the processed counter — not
the duplicate counter — because the returned id is truthy. -/
theorem duplicate_counter_cex :
    store_event dbClick pClick [] false = (Except.ok (some "e1"), dbClick) ∧
    (process_message ConsumerState.init dbClick pClick [] false true).1 =
      { processed := 1, failed := 0, duplicates := 0, dlq_logged := 0 } := by
  constructor
  · with_unfolding_all rfl
  · with_unfolding_all decide

/-- C9 (amended): a message for which `store_event` returns a truthy
identifier — a newly stored event or a pre-insert duplicate alike —
increments the processed counter when the offset commit succeeds, and the
offset commit is invoked; only the commit-time race no-op returning `None`
increments the duplicate counter, with the offset still committed. -/
theorem outcome_counters_thm (cs : ConsumerState) (db : DB) (p : Payload)
    (conc : List String) (fault commitOk : Bool) :
    (∀ eid db1, store_event db p conc fault = (Except.ok (some eid), db1) →
      eid ≠ "" → commitOk = true →
      process_message cs db p conc fault commitOk =
        ({ cs with processed := cs.processed + 1 }, db1, true)) ∧
    (∀ db1, store_event db p conc fault = (Except.ok none, db1) →
      process_message cs db p conc fault commitOk =
        ({ cs with duplicates := cs.duplicates + 1 }, db1, true)) := by
  constructor
  · intro eid db1 hs hne hc
    subst hc
    simp [process_message, hs, hne]
  · intro db1 hs
    simp [process_message, hs]

/-- C9 witness: a fresh click event is stored, the offset commit succeeds,
and the processed counter advances. -/
theorem outcome_counters_wit :
    process_message ConsumerState.init DB.empty pClick [] false true =
      ({ ConsumerState.init with processed := 1 }, dbClick, true) :=
  (outcome_counters_thm ConsumerState.init DB.empty pClick [] false true).1
    "e1" dbClick (by with_unfolding_all rfl) (by decide) rfl

/-- C1 counterexample: a transient SQLAlchemyError raised at commit is
re-raised by `store_event`, and the Coordinator still invokes the offset
commit for that message (third component `true`), contradicting the claim
that the offset is not committed after a transient storage failure. -/
theorem storage_error_commit_cex :
    (store_event DB.empty pClick [] true).1 =
      Except.error (PyErr.dbError "SQLAlchemyError" "database error") ∧
    (process_message ConsumerState.init DB.empty pClick [] true true).2.2 =
      true := by
  constructor
  · with_unfolding_all rfl
  · with_unfolding_all rfl

/-- C1 (amended): a SQLAlchemyError propagated out of `store_event` is
caught by the generic handler of the Coordinator, which dead-letters the
payload, increments the failed and DLQ counters, and still commits the
offset; the loop invokes the offset commit after every storage outcome, so
no processing outcome leaves the offset uncommitted. -/
theorem storage_error_commits_thm (cs : ConsumerState) (db : DB)
    (p : Payload) (conc : List String) (commitOk : Bool) :
    (∀ fault, (process_message cs db p conc fault commitOk).2.2 = true) ∧
    (∀ n msg, (store_event db p conc true).1 =
        Except.error (PyErr.dbError n msg) →
      process_message cs db p conc true commitOk =
        ({ cs with failed := cs.failed + 1,
                   dlq_logged := cs.dlq_logged + 1 },
         { db with dlq := db.dlq ++
            [{ event_id := p.event_id, event_data := p, error_message := msg,
               error_type := n, status := "pending", retry_count := 0 }] },
         true)) := by
  constructor
  · intro fault
    rcases hs : store_event db p conc fault with ⟨r, db1⟩
    rcases r with e | (_ | eid)
    · simp [process_message, hs]
    · simp [process_message, hs]
    · by_cases he : eid = ""
      · simp [process_message, hs, he]
      · by_cases hc : commitOk = true
        · simp [process_message, hs, he, hc]
        · simp [process_message, hs, he, hc]
  · intro n msg hs1
    have hdb := store_error_state hs1
    have hs : store_event db p conc true =
        (Except.error (PyErr.dbError n msg), db) := by
      rcases hsv : store_event db p conc true with ⟨r, db1⟩
      rw [hsv] at hs1 hdb
      dsimp only at hs1 hdb
      rw [hs1, hdb]
    simp [process_message, hs, log_dead_letter, errMessage, errTypeName]

/-- C1 witness: the injected transient fault on a click message. -/
theorem storage_error_commits_wit :
    process_message ConsumerState.init DB.empty pClick [] true true =
      ({ ConsumerState.init with failed := 1, dlq_logged := 1 },
       { DB.empty with dlq :=
          [{ event_id := some "e1", event_data := pClick,
             error_message := "database error",
             error_type := "SQLAlchemyError", status := "pending",
             retry_count := 0 }] },
       true) :=
  (storage_error_commits_thm ConsumerState.init DB.empty pClick []
    true).2 "SQLAlchemyError" "database error" (by with_unfolding_all rfl)

/-- C10: a payload whose duration field is a truthy non-numeric string
passes validation, but `store_event` raises `ValueError` at the float
conversion of step 4a and rolls back with no rows written; the Coordinator
then handles it exactly like a validation failure: dead-letter entry of
error type "ValueError", failed and DLQ counters incremented, offset
committed. -/
theorem bad_duration_thm (cs : ConsumerState) (db : DB) (p : Payload)
    (conc : List String) (fault commitOk : Bool) (eid sdur : String)
    (hval : (validate_event p).1 = true)
    (heid : p.event_id = some eid)
    (hnew : findEvent db eid = none)
    (hdur : p.duration = some (JVal.badStr sdur))
    (hs0 : sdur ≠ "") :
    store_event db p conc fault =
      (Except.error (PyErr.valueError
        ("could not convert string to float: " ++ sdur)), db) ∧
    process_message cs db p conc fault commitOk =
      ({ cs with failed := cs.failed + 1, dlq_logged := cs.dlq_logged + 1 },
       { db with dlq := db.dlq ++
          [{ event_id := p.event_id, event_data := p,
             error_message := "could not convert string to float: " ++ sdur,
             error_type := "ValueError", status := "pending",
             retry_count := 0 }] },
       true) := by
  obtain ⟨uid, hu⟩ := valid_uid hval
  obtain ⟨et, het⟩ := valid_etype hval
  obtain ⟨ts, hts⟩ := valid_ts hval
  obtain ⟨m, hv⟩ := valid_exists_pair hval
  have htr : (JVal.badStr sdur).truthy = true := by
    simp [JVal.truthy, hs0]
  have hds : durStep db p uid = Except.error (PyErr.valueError
      ("could not convert string to float: " ++ sdur)) := by
    simp [durStep, hdur, htr, pyFloat, JVal.str]
  have hs : store_event db p conc fault =
      (Except.error (PyErr.valueError
        ("could not convert string to float: " ++ sdur)), db) := by
    simp [store_event, hv, hu, heid, het, hts, hnew, hds]
  refine ⟨hs, ?_⟩
  simp [process_message, hs, log_dead_letter, errMessage, errTypeName]

/-- C10 witness: the click payload with duration "abc". -/
theorem bad_duration_wit :
    store_event DB.empty pBadDuration [] false =
      (Except.error (PyErr.valueError
        ("could not convert string to float: " ++ "abc")), DB.empty) ∧
    process_message ConsumerState.init DB.empty pBadDuration [] false true =
      ({ ConsumerState.init with failed := 1, dlq_logged := 1 },
       { DB.empty with dlq :=
          [{ event_id := some "e1", event_data := pBadDuration,
             error_message := "could not convert string to float: " ++ "abc",
             error_type := "ValueError", status := "pending",
             retry_count := 0 }] },
       true) :=
  bad_duration_thm ConsumerState.init DB.empty pBadDuration [] false true
    "e1" "abc" (by with_unfolding_all decide) rfl rfl rfl (by decide)

end Analytics

namespace Analytics

theorem string_data_append (s t : String) :
    (s ++ t).data = s.data ++ t.data := by
  cases s
  cases t
  rfl

theorem string_ne_of_head {s t : String} {c d : Char} {ls lt : List Char}
    (hs : s.data = c :: ls) (ht : t.data = d :: lt) (h : c ≠ d) :
    s ≠ t := by
  intro he
  subst he
  rw [ht] at hs
  injection hs with h1 _
  exact h h1.symm

theorem head_of_append (pre r : String) (c : Char) (l : List Char)
    (h : pre.data = c :: l) : (pre ++ r).data = c :: (l ++ r.data) := by
  rw [string_data_append, h]
  rfl

/-- The non-positive-amount reason contains the word "positive". -/
theorem positive_in_reason (x : String) :
    strContains "positive"
      ("Invalid amount: " ++ x ++ " (must be positive)") := by
  refine ⟨("Invalid amount: " ++ x).data ++ " (must be ".data,
    ")".data, ?_⟩
  simp [string_data_append, List.append_assoc]

/-- C7 counterexample: a purchase payload whose amount is the IEEE
infinity (float("inf"), also produced by a JSON `Infinity` literal) passes
validation although its amount does not parse as a finite number. -/
theorem infinite_amount_cex :
    validate_event pInfAmount = (true, none) ∧
    pInfAmount.amount = some (JVal.num PyNum.inf) ∧
    pyFloat (JVal.num PyNum.inf) = some PyNum.inf := by
  with_unfolding_all decide

/-- C7 (amended): for a purchase payload with all required fields present,
validation succeeds exactly when the amount field is present, parses under
float(), and the parsed value is not ≤ 0 in IEEE comparison — finiteness
is not checked, so inf and nan are accepted.  Each failure case yields its
own reason — the fixed missing-amount message, a reason headed
"Amount not numeric: ", and a reason headed "Invalid amount: " containing
"positive" — the three reasons are pairwise distinct, and a payload that
fails this rule creates no User, Event or Stats row: `store_event` aborts
with the `ValueError` and the state is unchanged. -/
theorem purchase_amount_thm (p : Payload)
    (hpur : p.event_type = some "purchase")
    (hmf : missingFields p = []) :
    ((validate_event p).1 = true ↔
      ∃ a x, p.amount = some a ∧ pyFloat a = some x ∧ pyLEzero x = false) ∧
    (p.amount = none →
      validate_event p =
        (false, some "Purchase event missing \x27amount\x27")) ∧
    (∀ a, p.amount = some a → pyFloat a = none →
      validate_event p =
        (false, some ("Amount not numeric: " ++ a.str))) ∧
    (∀ a x, p.amount = some a → pyFloat a = some x → pyLEzero x = true →
      validate_event p = (false, some ("Invalid amount: " ++ x.str ++
        " (must be positive)")) ∧
      strContains "positive"
        ("Invalid amount: " ++ x.str ++ " (must be positive)")) ∧
    (∀ a x, "Purchase event missing \x27amount\x27" ≠
        "Amount not numeric: " ++ JVal.str a ∧
      "Purchase event missing \x27amount\x27" ≠
        "Invalid amount: " ++ PyNum.str x ++ " (must be positive)" ∧
      "Amount not numeric: " ++ JVal.str a ≠
        "Invalid amount: " ++ PyNum.str x ++ " (must be positive)") ∧
    (∀ db conc fault m, validate_event p = (false, some m) →
      store_event db p conc fault =
        (Except.error (PyErr.valueError m), db)) := by
  have hvp : validate_event p =
      (match p.amount with
       | none => (false, some "Purchase event missing \x27amount\x27")
       | some a =>
         match pyFloat a with
         | none => (false, some ("Amount not numeric: " ++ a.str))
         | some x =>
           if pyLEzero x then
             (false,
              some ("Invalid amount: " ++ x.str ++ " (must be positive)"))
           else (true, none)) := by
    unfold validate_event
    rw [if_neg (not_not_intro hmf), if_pos (by simp [hpur])]
  have hP : ("Purchase event missing \x27amount\x27").data =
      'P' :: ("urchase event missing \x27amount\x27").data := by decide
  have hA : ("Amount not numeric: ").data =
      'A' :: ("mount not numeric: ").data := by decide
  have hI : ("Invalid amount: ").data =
      'I' :: ("nvalid amount: ").data := by decide
  refine ⟨?_, ?_, ?_, ?_, ?_, ?_⟩
  · rw [hvp]
    constructor
    · intro h
      cases ham : p.amount with
      | none => rw [ham] at h; simp at h
      | some a =>
        rw [ham] at h
        cases hx : pyFloat a with
        | none => simp [hx] at h
        | some x =>
          by_cases hl : pyLEzero x = true
          · simp [hx, hl] at h
          · exact ⟨a, x, rfl, hx, bool_not_true hl⟩
    · rintro ⟨a, x, ham, hx, hl⟩
      rw [ham]
      simp [hx, hl]
  · intro h
    rw [hvp, h]
  · intro a ham hx
    rw [hvp, ham]
    simp [hx]
  · intro a x ham hx hl
    refine ⟨?_, positive_in_reason x.str⟩
    rw [hvp, ham]
    simp [hx, hl]
  · intro a x
    refine ⟨?_, ?_, ?_⟩
    · exact string_ne_of_head hP
        (head_of_append "Amount not numeric: " (JVal.str a) 'A' _ hA)
        (by decide)
    · exact string_ne_of_head hP
        (head_of_append ("Invalid amount: " ++ PyNum.str x)
          " (must be positive)" 'I' _
          (head_of_append "Invalid amount: " (PyNum.str x) 'I' _ hI))
        (by decide)
    · exact string_ne_of_head
        (head_of_append "Amount not numeric: " (JVal.str a) 'A' _ hA)
        (head_of_append ("Invalid amount: " ++ PyNum.str x)
          " (must be positive)" 'I' _
          (head_of_append "Invalid amount: " (PyNum.str x) 'I' _ hI))
        (by decide)
  · intro db conc fault m hm
    simp [store_event, hm]

/-- C7 witness: Scenario F, the purchase with amount -5 fails with the
reason containing "positive". -/
theorem purchase_amount_wit :
    validate_event pNegAmount = (false, some ("Invalid amount: " ++
      (PyNum.fin (-5)).str ++ " (must be positive)")) ∧
    strContains "positive" ("Invalid amount: " ++ (PyNum.fin (-5)).str ++
      " (must be positive)") :=
  (purchase_amount_thm pNegAmount rfl rfl).2.2.2.1
    (JVal.num (PyNum.fin (-5))) (PyNum.fin (-5)) rfl rfl
    (by with_unfolding_all decide)

end Analytics
